import Mathlib

/-!
Verification development for the llama-hub GitLab connector modules
(`llama_hub/gitlab_repo`, `llama_hub/gitlab_repo_issues`).

The development is a shallow embedding of the Python sources:

* `GitlabClient` / `GitLabIssuesClient` (`gitlab_client.py` of both
  modules): construction, `request`, `get_tree`, `get_blob`,
  `get_commit`, `get_branch`, `get_all_endpoints`.  The HTTP transport
  and JSON (de)serialization are external collaborators and are passed
  in as oracles (the outcome of the single HTTP call performed, and the
  `from_json` parsing function).
* a Python-dict heap model (`DictStore`) used to state aliasing/framing
  facts about `get_all_endpoints` (which returns `{**self._endpoints}`,
  a fresh copy) and `request` (which builds `{**self._headers, **headers}`,
  a fresh merged dict).
* `GitLabRepositoryIssuesReader._must_include` (`base.py` of the issues
  module): label filtering.
* the buffered blob iterator.  Its implementation file
  (`llama_hub/gitlab_repo/utils.py`, `BufferedGitBlobDataIterator`) is
  not part of the provided sources (only its import in `__init__.py`
  is), so it is modelled from the specification's windowing algorithm.
-/

set_option maxHeartbeats 1000000
set_option linter.dupNamespace false
set_option linter.unusedVariables false
set_option linter.unnecessarySimpa false

/-! ## Python dict as an association list (insertion order preserved) -/

/-- Look up key `k` in an association list modelling a Python `dict`. -/
def lookupDict (d : List (String × String)) (k : String) : Option String :=
  match d with
  | [] => none
  | (k', v) :: rest => if k' = k then some v else lookupDict rest k

/-- Set key `k` to `v`, replacing the existing binding in place (as a
Python dict does) or appending a new one. -/
def dictSet (d : List (String × String)) (k v : String) : List (String × String) :=
  match d with
  | [] => [(k, v)]
  | (k', v') :: rest => if k' = k then (k', v) :: rest else (k', v') :: dictSet rest k v

/-- Python `{**a, **b}`: all bindings of `a`, with the bindings of `b`
added or overriding. -/
def dictMerge (a b : List (String × String)) : List (String × String) :=
  b.foldl (fun acc kv => dictSet acc kv.1 kv.2) a

/-! ## Response data models (`gitlab_client.py` dataclasses) -/

/-- One object of a tree listing (`GitTreeResponseModel.GitTreeObject`). -/
structure GitTreeObject where
  path : String
  mode : String
  type : String
  sha : String
  url : String
  size : Option Nat := none
deriving DecidableEq, Repr, Inhabited

/-- Response of the getTree endpoint (`GitTreeResponseModel`). -/
structure GitTreeResponseModel where
  sha : String
  url : String
  tree : List GitTreeObject
  truncated : Bool
deriving DecidableEq, Repr, Inhabited

/-- Response of the getBlob endpoint (`GitBlobResponseModel`). -/
structure GitBlobResponseModel where
  content : String
  encoding : String
  url : String
  sha : String
  size : Nat
  node_id : String
deriving DecidableEq, Repr, Inhabited

/-- Tree reference inside a commit (`GitCommitResponseModel.Commit.Tree`). -/
structure GitCommitResponseModel.Commit.Tree where
  sha : String
deriving DecidableEq, Repr, Inhabited

/-- Commit object inside a commit response (`GitCommitResponseModel.Commit`). -/
structure GitCommitResponseModel.Commit where
  tree : GitCommitResponseModel.Commit.Tree
deriving DecidableEq, Repr, Inhabited

/-- Response of the getCommit endpoint (`GitCommitResponseModel`). -/
structure GitCommitResponseModel where
  commit : GitCommitResponseModel.Commit
  url : String
  sha : String
deriving DecidableEq, Repr, Inhabited

/-- Innermost commit of a branch response
(`GitBranchResponseModel.Commit.Commit`). -/
structure GitBranchResponseModel.Commit.Commit where
  tree : GitCommitResponseModel.Commit.Tree
deriving DecidableEq, Repr, Inhabited

/-- Commit object of a branch response (`GitBranchResponseModel.Commit`). -/
structure GitBranchResponseModel.Commit where
  commit : GitBranchResponseModel.Commit.Commit
deriving DecidableEq, Repr, Inhabited

/-- The `_links` object of a branch response (`GitBranchResponseModel.Links`). -/
structure GitBranchResponseModel.Links where
  self : String
  html : String
deriving DecidableEq, Repr, Inhabited

/-- Response of the getBranch endpoint (`GitBranchResponseModel`). -/
structure GitBranchResponseModel where
  commit : GitBranchResponseModel.Commit
  name : String
  _links : GitBranchResponseModel.Links
deriving DecidableEq, Repr, Inhabited

/-! ## Errors raised by the clients

Python exception kinds are collected in one type so that "operation X
never raises exception kind Y" is a contentful statement.
`auth` is the `ValueError` raised by `__init__` for a missing token
(the spec's `AuthError`); `transport` is an `httpx.HTTPError` raised by
the HTTP call itself (network failure); `httpStatus` is the
`httpx.HTTPStatusError` raised by `raise_for_status` for a non-2xx
response; `parse` is a deserialization failure of `from_json`;
`keyError` is the Python `KeyError` of `self._endpoints[endpoint]`;
`valueError` is the `ValueError` of `get_branch`. -/
inductive ClientError where
  | auth (msg : String)
  | transport (msg : String)
  | httpStatus (status : Nat)
  | parse (msg : String)
  | keyError (key : String)
  | valueError (msg : String)
deriving DecidableEq, Repr

/-- HTTP response as seen by the clients: status code and body text. -/
structure HttpResponse where
  status : Nat
  text : String
deriving DecidableEq, Repr, Inhabited

/-- Error message of both clients' `__init__` for a missing token
(string concatenation exactly as in the source). -/
def missingTokenMsg : String :=
  "Please provide a GitLab token. "
    ++ "You can do so by passing it as an argument to the GitLabReader,"
    ++ "or by setting the GITLAB_TOKEN environment variable."

/-! ## `GitlabClient` (`llama_hub/gitlab_repo/gitlab_client.py`) -/

/-- State of a constructed `GitlabClient`: the fields assigned by
`__init__` (`_base_url`, `_api_version`, `_verbose`, `_endpoints`,
`_headers`). -/
structure GitlabClient where
  base_url : String
  api_version : String
  verbose : Bool
  endpoints : List (String × String)
  headers : List (String × String)
deriving DecidableEq, Repr

def GitlabClient.DEFAULT_BASE_URL : String := "https://gitlab.com/api/"

def GitlabClient.DEFAULT_API_VERSION : String := "V4"

/-- Endpoint dict assigned by `GitlabClient.__init__`. -/
def GitlabClient.initialEndpoints : List (String × String) :=
  [("getTree", "/repos/{owner}/{repo}/git/trees/{tree_sha}"),
   ("getBranch", "/repos/{owner}/{repo}/branches/{branch}"),
   ("getBlob", "/repos/{owner}/{repo}/git/blobs/{file_sha}"),
   ("getCommit", "/repos/{owner}/{repo}/commits/{commit_sha}")]

/-- Header dict assigned by `GitlabClient.__init__` for a resolved token. -/
def GitlabClient.initialHeaders (gitlab_token api_version : String) :
    List (String × String) :=
  [("Accept", "application/vnd.gitlab+json"),
   ("Authorization", "Bearer " ++ gitlab_token),
   ("X-GitLab-Api-Version", api_version)]

/-- Model of `GitlabClient.__init__`.  Here `envGitlabToken` is the value of
`os.getenv("GITLAB_TOKEN")`.  Raises `ValueError` (the spec's
`AuthError`) when neither the argument nor the environment provides a
token; otherwise assigns the instance fields. -/
def GitlabClient.init (gitlab_token : Option String)
    (envGitlabToken : Option String) (base_url : String)
    (api_version : String) (verbose : Bool) :
    Except ClientError GitlabClient :=
  match gitlab_token with
  | none =>
    match envGitlabToken with
    | none => .error (.auth missingTokenMsg)
    | some tok =>
      .ok { base_url := base_url, api_version := api_version,
            verbose := verbose, endpoints := GitlabClient.initialEndpoints,
            headers := GitlabClient.initialHeaders tok api_version }
  | some tok =>
    .ok { base_url := base_url, api_version := api_version,
          verbose := verbose, endpoints := GitlabClient.initialEndpoints,
          headers := GitlabClient.initialHeaders tok api_version }

/-- Model of `GitlabClient.get_all_endpoints`: returns `{**self._endpoints}`, a
copy of the endpoint dict (object identity is modelled separately by
the `DictStore` embedding below). -/
def GitlabClient.get_all_endpoints (c : GitlabClient) : List (String × String) :=
  c.endpoints

/-- Model of `GitlabClient.request`.  Here `httpResult` is the outcome of the single
`_client.request` call performed by the `httpx` transport (an external
collaborator): either an `httpx.HTTPError` (network failure) or a
response of any status.  The source formats
`self._endpoints[endpoint]` (a `KeyError` for an unknown endpoint name),
opens a session with the merged headers, performs the call, prints and
re-raises an `httpx.HTTPError`, and otherwise returns the response
unconditionally — there is no `raise_for_status`, so a non-2xx response
is returned, not raised. -/
def GitlabClient.request (c : GitlabClient) (endpoint : String)
    (method : String) (headers : List (String × String))
    (httpResult : Except String HttpResponse) :
    Except ClientError HttpResponse :=
  let _headers := dictMerge c.headers headers
  match lookupDict c.endpoints endpoint with
  | none => .error (.keyError endpoint)
  | some _url =>
    match method, httpResult with
    | _, .error excp => .error (.transport excp)
    | _, .ok response => .ok response

/-- Model of `GitlabClient.get_branch`.  Raises `ValueError` when both `branch`
and `branch_name` are `None`; when only `branch_name` is given it is
used as the branch.  `from_json` is the `dataclasses_json`
deserializer (external collaborator), returning either the model or a
parse failure message. -/
def GitlabClient.get_branch (c : GitlabClient) (owner repo : String)
    (branch branch_name : Option String)
    (httpResult : Except String HttpResponse)
    (from_json : String → Except String GitBranchResponseModel) :
    Except ClientError GitBranchResponseModel :=
  match branch, branch_name with
  | none, none => .error (.valueError "Either branch or branch_name must be provided.")
  | none, some bn =>
    match c.request "getBranch" "GET" [] httpResult with
    | .error e => .error e
    | .ok response =>
      match from_json response.text with
      | .error msg => .error (.parse msg)
      | .ok model => .ok model
  | some _b, _ =>
    match c.request "getBranch" "GET" [] httpResult with
    | .error e => .error e
    | .ok response =>
      match from_json response.text with
      | .error msg => .error (.parse msg)
      | .ok model => .ok model

/-- Model of `GitlabClient.get_tree`: `request("getTree", "GET", ...)` followed by
`GitTreeResponseModel.from_json(response.text)`. -/
def GitlabClient.get_tree (c : GitlabClient) (owner repo tree_sha : String)
    (httpResult : Except String HttpResponse)
    (from_json : String → Except String GitTreeResponseModel) :
    Except ClientError GitTreeResponseModel :=
  match c.request "getTree" "GET" [] httpResult with
  | .error e => .error e
  | .ok response =>
    match from_json response.text with
    | .error msg => .error (.parse msg)
    | .ok model => .ok model

/-- Model of `GitlabClient.get_blob`: `request("getBlob", "GET", ...)` followed by
`GitBlobResponseModel.from_json(response.text)`. -/
def GitlabClient.get_blob (c : GitlabClient) (owner repo file_sha : String)
    (httpResult : Except String HttpResponse)
    (from_json : String → Except String GitBlobResponseModel) :
    Except ClientError GitBlobResponseModel :=
  match c.request "getBlob" "GET" [] httpResult with
  | .error e => .error e
  | .ok response =>
    match from_json response.text with
    | .error msg => .error (.parse msg)
    | .ok model => .ok model

/-- Model of `GitlabClient.get_commit`: `request("getCommit", "GET", ...)` followed
by `GitCommitResponseModel.from_json(response.text)`. -/
def GitlabClient.get_commit (c : GitlabClient) (owner repo commit_sha : String)
    (httpResult : Except String HttpResponse)
    (from_json : String → Except String GitCommitResponseModel) :
    Except ClientError GitCommitResponseModel :=
  match c.request "getCommit" "GET" [] httpResult with
  | .error e => .error e
  | .ok response =>
    match from_json response.text with
    | .error msg => .error (.parse msg)
    | .ok model => .ok model

/-! ## `GitLabIssuesClient` (`llama_hub/gitlab_repo_issues/gitlab_client.py`) -/

/-- State of a constructed `GitLabIssuesClient`. -/
structure GitLabIssuesClient where
  base_url : String
  api_version : String
  verbose : Bool
  endpoints : List (String × String)
  headers : List (String × String)
deriving DecidableEq, Repr

/-- Endpoint dict assigned by `GitLabIssuesClient.__init__`. -/
def GitLabIssuesClient.initialEndpoints : List (String × String) :=
  [("getIssues", "/repos/{owner}/{repo}/issues")]

/-- Model of `GitLabIssuesClient.__init__`: identical token resolution to
`GitlabClient.__init__` (same eager `ValueError`), with the issues
endpoint dict. -/
def GitLabIssuesClient.init (gitlab_token : Option String)
    (envGitlabToken : Option String) (base_url : String)
    (api_version : String) (verbose : Bool) :
    Except ClientError GitLabIssuesClient :=
  match gitlab_token with
  | none =>
    match envGitlabToken with
    | none => .error (.auth missingTokenMsg)
    | some tok =>
      .ok { base_url := base_url, api_version := api_version,
            verbose := verbose, endpoints := GitLabIssuesClient.initialEndpoints,
            headers := GitlabClient.initialHeaders tok api_version }
  | some tok =>
    .ok { base_url := base_url, api_version := api_version,
          verbose := verbose, endpoints := GitLabIssuesClient.initialEndpoints,
          headers := GitlabClient.initialHeaders tok api_version }

/-- Model of `GitLabIssuesClient.request`.  Unlike `GitlabClient.request`, this
one calls `response.raise_for_status()`, which raises
`httpx.HTTPStatusError` (caught by the same `except httpx.HTTPError`
handler, printed, and re-raised) whenever the status is not 2xx. -/
def GitLabIssuesClient.request (c : GitLabIssuesClient) (endpoint : String)
    (method : String) (headers : List (String × String))
    (params : List (String × String))
    (httpResult : Except String HttpResponse) :
    Except ClientError HttpResponse :=
  let _headers := dictMerge c.headers headers
  match lookupDict c.endpoints endpoint with
  | none => .error (.keyError endpoint)
  | some _url =>
    match method, httpResult with
    | _, .error excp => .error (.transport excp)
    | _, .ok response =>
      if 200 ≤ response.status ∧ response.status < 300 then .ok response
      else .error (.httpStatus response.status)

/-! ## Dict object heap (for the framing claims about `GitlabClient`)

Python dicts are mutable heap objects.  `DictStore` models the heap of
dict objects: a reference is an index into the store.  This lets the
development state that `get_all_endpoints` returns a *fresh copy* of
the endpoint dict (`{**self._endpoints}`) and that `request` builds its
effective headers as a *new merged dict* (`{**self._headers, **headers}`),
so no client operation writes through the client's own dict references. -/

/-- Heap of Python dict objects; a reference is an index into `dicts`. -/
structure DictStore where
  dicts : List (List (String × String))
deriving Repr

/-- Allocate a new dict object, returning its reference. -/
def DictStore.alloc (st : DictStore) (d : List (String × String)) :
    Nat × DictStore :=
  (st.dicts.length, ⟨st.dicts ++ [d]⟩)

/-- Dereference a dict object. -/
def DictStore.read (st : DictStore) (r : Nat) : List (String × String) :=
  st.dicts.getD r []

/-- Overwrite the contents of the dict object at `r` (models external
in-place mutation of a dict the caller was handed). -/
def DictStore.write (st : DictStore) (r : Nat) (d : List (String × String)) :
    DictStore :=
  ⟨st.dicts.set r d⟩

/-- Heap view of a constructed `GitlabClient`: the scalar fields plus
references to its two dict objects (`self._endpoints`, `self._headers`). -/
structure GitlabClientObj where
  base_url : String
  api_version : String
  verbose : Bool
  endpointsRef : Nat
  headersRef : Nat
deriving DecidableEq, Repr

/-- The client's dict references are live in the store. -/
def WFClient (st : DictStore) (c : GitlabClientObj) : Prop :=
  c.endpointsRef < st.dicts.length ∧ c.headersRef < st.dicts.length

/-- Heap version of `GitlabClient.__init__` (successful construction):
allocates the endpoint dict and the header dict. -/
def GitlabClientObj.init (st : DictStore) (gitlab_token : String)
    (base_url api_version : String) (verbose : Bool) :
    GitlabClientObj × DictStore :=
  let er := (st.alloc GitlabClient.initialEndpoints).1
  let st1 := (st.alloc GitlabClient.initialEndpoints).2
  let hr := (st1.alloc (GitlabClient.initialHeaders gitlab_token api_version)).1
  let st2 := (st1.alloc (GitlabClient.initialHeaders gitlab_token api_version)).2
  ({ base_url := base_url, api_version := api_version, verbose := verbose,
     endpointsRef := er, headersRef := hr }, st2)

/-- Heap version of `get_all_endpoints`: `return {**self._endpoints}`
allocates a fresh dict holding a copy of the endpoint bindings and
returns its reference. -/
def GitlabClientObj.get_all_endpoints (st : DictStore) (c : GitlabClientObj) :
    Nat × DictStore :=
  st.alloc (st.read c.endpointsRef)

/-- Heap version of `request`: `_headers = {**self._headers, **headers}`
allocates a fresh merged dict; the client's own dicts are only read. -/
def GitlabClientObj.request (st : DictStore) (c : GitlabClientObj)
    (endpoint method : String) (headers : List (String × String))
    (httpResult : Except String HttpResponse) :
    Except ClientError HttpResponse × DictStore :=
  let st1 := (st.alloc (dictMerge (st.read c.headersRef) headers)).2
  match lookupDict (st1.read c.endpointsRef) endpoint with
  | none => (.error (.keyError endpoint), st1)
  | some _url =>
    match httpResult with
    | .error excp => (.error (.transport excp), st1)
    | .ok response => (.ok response, st1)

/-- One client call, for stating frame preservation over arbitrary call
sequences.  The per-endpoint getters each perform exactly one `request`
(JSON parsing does not touch the dict heap), so their heap effect is
that of their `request`. -/
inductive ClientCall where
  | callRequest (endpoint method : String) (headers : List (String × String))
      (httpResult : Except String HttpResponse)
  | callGetTree (owner repo tree_sha : String) (httpResult : Except String HttpResponse)
  | callGetBlob (owner repo file_sha : String) (httpResult : Except String HttpResponse)
  | callGetCommit (owner repo commit_sha : String) (httpResult : Except String HttpResponse)
  | callGetBranch (owner repo : String) (branch branch_name : Option String)
      (httpResult : Except String HttpResponse)
  | callGetAllEndpoints

/-- Heap effect of one client call. -/
def applyCall (st : DictStore) (c : GitlabClientObj) : ClientCall → DictStore
  | .callRequest endpoint method headers httpResult =>
    (GitlabClientObj.request st c endpoint method headers httpResult).2
  | .callGetTree _ _ _ httpResult =>
    (GitlabClientObj.request st c "getTree" "GET" [] httpResult).2
  | .callGetBlob _ _ _ httpResult =>
    (GitlabClientObj.request st c "getBlob" "GET" [] httpResult).2
  | .callGetCommit _ _ _ httpResult =>
    (GitlabClientObj.request st c "getCommit" "GET" [] httpResult).2
  | .callGetBranch _ _ branch branch_name httpResult =>
    match branch, branch_name with
    | none, none => st
    | _, _ => (GitlabClientObj.request st c "getBranch" "GET" [] httpResult).2
  | .callGetAllEndpoints => (GitlabClientObj.get_all_endpoints st c).2

/-- Heap effect of a sequence of client calls. -/
def runCalls (st : DictStore) (c : GitlabClientObj) : List ClientCall → DictStore
  | [] => st
  | call :: rest => runCalls (applyCall st c call) c rest

/-! ## Issues reader label filtering
(`llama_hub/gitlab_repo_issues/base.py`, `_must_include`) -/

/-- Enum `GitLabRepositoryIssuesReader.FilterType`. -/
inductive FilterType where
  | EXCLUDE
  | INCLUDE
deriving DecidableEq, Repr

/-- One label of an issue, as returned by the API (`label["name"]`). -/
structure IssueLabel where
  name : String
deriving DecidableEq, Repr, Inhabited

/-- The part of an issue record that `_must_include` consults. -/
structure Issue where
  labels : List IssueLabel
deriving DecidableEq, Repr, Inhabited

/-- Loop body of `_must_include`: iterate over the filters; the first
filter returns in both of its `FilterType` branches (`label in labels`
for `INCLUDE`, `label not in labels` for `EXCLUDE`), so the remaining
filters are unreachable; an exhausted loop returns `True`. -/
def mustIncludeLoop (labels : List String) :
    List (String × FilterType) → Bool
  | [] => true
  | (label, filterType) :: _rest =>
    match filterType with
    | .INCLUDE => labels.contains label
    | .EXCLUDE => !(labels.contains label)

/-- Model of `GitLabRepositoryIssuesReader._must_include`: `None` filters include
everything; otherwise the issue's label names are collected and the
filter loop runs. -/
def must_include (labelFilters : Option (List (String × FilterType)))
    (issue : Issue) : Bool :=
  match labelFilters with
  | none => true
  | some filters =>
    let labels := issue.labels.map (fun label => label.name)
    mustIncludeLoop labels filters

/-! ## Buffered blob iterator

Modelled from the spec: the implementation file
`llama_hub/gitlab_repo/utils.py` (`BufferedGitBlobDataIterator`,
re-exported by `llama_hub/gitlab_repo/__init__.py`) is not among the
provided sources, so the definitions below follow the specification's
windowing algorithm (spec sections 4.2 and 5): indices `next_to_fetch`
and `next_to_yield`, the first `W` fetches started eagerly on
construction, the consumer suspending until the fetch for
`next_to_yield` completes, then yielding, advancing, and starting the
next fetch.  Fetch completion is driven by an explicit event schedule
so that "any order in which the underlying blob fetches complete" is a
genuine quantifier. -/

/-- Errors surfaced through the iterator: the Git Client's transport and
parse failures (delivered by the fetch of one entry) and the decode
failure of an unrecognized encoding tag. -/
inductive IterError where
  | transportError
  | parseError
  | decodeError
deriving DecidableEq, Repr

/-- Modelled from the spec: value of one base64 alphabet character. -/
def base64Val (c : Char) : Option Nat :=
  if 'A' ≤ c ∧ c ≤ 'Z' then some (c.toNat - 65)
  else if 'a' ≤ c ∧ c ≤ 'z' then some (c.toNat - 97 + 26)
  else if '0' ≤ c ∧ c ≤ '9' then some (c.toNat - 48 + 52)
  else if c = '+' then some 62
  else if c = '/' then some 63
  else none

/-- Modelled from the spec: decode base64 characters in groups of four
into byte values, honouring trailing padding. -/
def base64DecodeGroups : List Char → Option (List Nat)
  | [] => some []
  | c1 :: c2 :: c3 :: c4 :: rest =>
    match base64Val c1, base64Val c2 with
    | some v1, some v2 =>
      if c3 = '=' then
        if c4 = '=' ∧ rest = [] then some [v1 * 4 + v2 / 16] else none
      else
        match base64Val c3 with
        | some v3 =>
          if c4 = '=' then
            if rest = [] then
              some [v1 * 4 + v2 / 16, (v2 % 16) * 16 + v3 / 4]
            else none
          else
            match base64Val c4 with
            | some v4 =>
              match base64DecodeGroups rest with
              | some bs =>
                some ((v1 * 4 + v2 / 16) :: ((v2 % 16) * 16 + v3 / 4) ::
                      ((v3 % 4) * 64 + v4) :: bs)
              | none => none
            | none => none
        | none => none
    | _, _ => none
  | _ => none

/-- Modelled from the spec: base64-decode a string to the raw text it
encodes (bytes read back as characters). -/
def base64Decode (s : String) : Option String :=
  match base64DecodeGroups s.data with
  | some bs => some (String.mk (bs.map Char.ofNat))
  | none => none

/-- Modelled from the spec (section 4.2, content decoding): content with
the `base64` encoding tag is decoded before being exposed; an
unrecognized encoding tag (or undecodable base64 payload) fails with
`DecodeError`. -/
def decodeBlobContent (blob : GitBlobResponseModel) : Except IterError String :=
  if blob.encoding = "base64" then
    match base64Decode blob.content with
    | some s => .ok s
    | none => .error .decodeError
  else .error .decodeError

/-- Modelled from the spec: construction parameters of the iterator —
the ordered blob-type entries, the per-entry fetch outcome delivered by
the Git Client (`fetch i` is what the fetch task for entry `i` will
deliver: a `BlobContent` or a transport/parse failure), and the
prefetch window size `W`. -/
structure IterConfig where
  entries : List GitTreeObject
  fetch : Nat → Except IterError GitBlobResponseModel
  window : Nat

/-- Modelled from the spec: iterator state — fetches have been started
for entries `[0, nextToFetch)`, entries `[0, nextToYield)` have been
consumed, `completed` records the started fetches whose results have
arrived, and `failed` records that an error was surfaced to the
consumer (the generator is dead afterwards). -/
structure IterState where
  nextToFetch : Nat
  nextToYield : Nat
  completed : List Nat
  failed : Bool
deriving DecidableEq, Repr

/-- Modelled from the spec: on construction, fetches for the first `W`
entries (or fewer if the sequence is shorter) are started eagerly. -/
def initState (cfg : IterConfig) : IterState :=
  { nextToFetch := min cfg.window cfg.entries.length,
    nextToYield := 0, completed := [], failed := false }

/-- One observable output of the iterator: the pair for entry `idx`
(with its decoded content), or the error surfaced where entry `idx`
would have been yielded. -/
inductive IterOutput where
  | pairOut (idx : Nat) (entry : GitTreeObject) (content : String)
  | errOut (idx : Nat) (err : IterError)
deriving DecidableEq, Repr

/-- Scheduler events: `complete i` lets the in-flight fetch for entry
`i` finish (completion order is chosen by the schedule, adversarially);
`consume` is the consumer requesting the next pair, which is only
enabled once the fetch for `nextToYield` has completed (the consumer
suspends until then). -/
inductive IterEvent where
  | complete (i : Nat)
  | consume
deriving DecidableEq, Repr

/-- Modelled from the spec (section 4.2 windowing algorithm): a
completion event marks a started, not-yet-completed fetch as done; a
consume event requires the fetch for `nextToYield` to have completed,
yields its pair (decoding the content) or surfaces its error, advances
`nextToYield`, and starts the fetch for `nextToFetch` if entries
remain.  Invalid events are rejected (`none`). -/
def applyEvent (cfg : IterConfig) (s : IterState) :
    IterEvent → Option (IterState × Option IterOutput)
  | .complete i =>
    if i < s.nextToFetch ∧ ¬ i ∈ s.completed then
      some ({ s with completed := i :: s.completed }, none)
    else none
  | .consume =>
    if s.failed = false ∧ s.nextToYield < cfg.entries.length ∧
        s.nextToYield ∈ s.completed then
      match cfg.fetch s.nextToYield with
      | .error e => some ({ s with failed := true }, some (.errOut s.nextToYield e))
      | .ok blob =>
        match decodeBlobContent blob with
        | .error e => some ({ s with failed := true }, some (.errOut s.nextToYield e))
        | .ok content =>
          some ({ s with
                  nextToYield := s.nextToYield + 1,
                  nextToFetch :=
                    if s.nextToFetch < cfg.entries.length then s.nextToFetch + 1
                    else s.nextToFetch },
                some (.pairOut s.nextToYield (cfg.entries.getD s.nextToYield default)
                  content))
    else none

/-- Run a schedule of events, collecting the outputs observed by the
consumer; fails (`none`) when the schedule contains an invalid event. -/
def execSchedule (cfg : IterConfig) :
    IterState → List IterEvent → Option (IterState × List IterOutput)
  | s, [] => some (s, [])
  | s, ev :: rest =>
    match applyEvent cfg s ev with
    | none => none
    | some (s', out) =>
      match execSchedule cfg s' rest with
      | none => none
      | some (s'', outs) => some (s'', out.toList ++ outs)

/-- Modelled from the spec: `has_next` of the consumer interface — the
sequence is exhausted once every entry was consumed or an error
terminated the traversal. -/
def hasNext (cfg : IterConfig) (s : IterState) : Bool :=
  !s.failed && decide (s.nextToYield < cfg.entries.length)

/-- The result the consumer is due for entry `i`: the fetched blob's
decoded content, or the first error on that path. -/
def decodedAt (cfg : IterConfig) (i : Nat) : Except IterError String :=
  match cfg.fetch i with
  | .error e => .error e
  | .ok blob => decodeBlobContent blob

/-- All entries below `k` fetch and decode successfully. -/
def AllOkBelow (cfg : IterConfig) (k : Nat) : Prop :=
  ∀ i, i < k → (decodedAt cfg i).isOk = true

/-- The pair output the consumer is due for entry `i` (meaningful when
`decodedAt` succeeds at `i`). -/
def pairAt (cfg : IterConfig) (i : Nat) : IterOutput :=
  .pairOut i (cfg.entries.getD i default) ((decodedAt cfg i).toOption.getD "")

/-- Projection of an output trace to the yielded pairs, as
(entry index, entry) in order of appearance. -/
def yieldedPairs (outs : List IterOutput) : List (Nat × GitTreeObject) :=
  outs.filterMap (fun o =>
    match o with
    | .pairOut i e _ => some (i, e)
    | .errOut _ _ => none)

/-- The invariant tying a reachable iterator state to the trace of
outputs observed so far: index bookkeeping is within bounds, at most
`window` fetches are outstanding, completed fetches were started, and
the trace is exactly the ordered pairs for the consumed entries —
followed, after a failure, by the error of the entry at which the
traversal stopped. -/
def IterInv (cfg : IterConfig) (s : IterState) (outs : List IterOutput) : Prop :=
  s.nextToYield ≤ s.nextToFetch ∧
  s.nextToFetch ≤ cfg.entries.length ∧
  s.nextToFetch ≤ s.nextToYield + cfg.window ∧
  (∀ i ∈ s.completed, i < s.nextToFetch) ∧
  (if s.failed then
     s.nextToYield < cfg.entries.length ∧
     AllOkBelow cfg s.nextToYield ∧
     ∃ e, decodedAt cfg s.nextToYield = .error e ∧
       outs = (List.range s.nextToYield).map (pairAt cfg) ++
         [.errOut s.nextToYield e]
   else
     AllOkBelow cfg s.nextToYield ∧
     outs = (List.range s.nextToYield).map (pairAt cfg))

/-- Config with the prefetch window reduced to a single slot. -/
def windowOne (cfg : IterConfig) : IterConfig :=
  { cfg with window := 1 }

/-! ## Concrete instances used by the witness theorems -/

/-- Sample blob-type tree entry. -/
def entA : GitTreeObject :=
  { path := "a.txt", mode := "100644", type := "blob", sha := "shaA",
    url := "uA", size := some 5 }

/-- Second sample blob-type tree entry. -/
def entB : GitTreeObject :=
  { path := "b.txt", mode := "100644", type := "blob", sha := "shaB",
    url := "uB", size := some 2 }

/-- Blob content carrying base64 "aGVsbG8=" (decodes to "hello"). -/
def blobHello : GitBlobResponseModel :=
  { content := "aGVsbG8=", encoding := "base64", url := "uA", sha := "shaA",
    size := 5, node_id := "nA" }

/-- Blob content carrying base64 "aGk=" (decodes to "hi"). -/
def blobHi : GitBlobResponseModel :=
  { content := "aGk=", encoding := "base64", url := "uB", sha := "shaB",
    size := 2, node_id := "nB" }

/-- Blob content with an unrecognized encoding tag. -/
def blobBad : GitBlobResponseModel :=
  { content := "aGk=", encoding := "unknown", url := "uB", sha := "shaB",
    size := 2, node_id := "nB" }

/-- Two-entry iterator configuration, all fetches succeed, window 2. -/
def wCfg1 : IterConfig :=
  { entries := [entA, entB],
    fetch := fun i => if i = 0 then .ok blobHello else .ok blobHi,
    window := 2 }

/-- Schedule whose fetches complete out of order (entry 1 before entry 0). -/
def wSched1 : List IterEvent := [.complete 1, .complete 0, .consume, .consume]

/-- Final state of running `wSched1` on `wCfg1`. -/
def wState1 : IterState :=
  { nextToFetch := 2, nextToYield := 2, completed := [0, 1], failed := false }

/-- Outputs of running `wSched1` on `wCfg1`. -/
def wOuts1 : List IterOutput :=
  [.pairOut 0 entA "hello", .pairOut 1 entB "hi"]

/-- Two-entry configuration with window 1. -/
def wCfg2 : IterConfig :=
  { entries := [entA, entB],
    fetch := fun i => if i = 0 then .ok blobHello else .ok blobHi,
    window := 1 }

/-- Partial schedule: one fetch completed, one pair consumed. -/
def wSched2 : List IterEvent := [.complete 0, .consume]

/-- Final state of running `wSched2` on `wCfg2`. -/
def wState2 : IterState :=
  { nextToFetch := 2, nextToYield := 1, completed := [0], failed := false }

/-- Outputs of running `wSched2` on `wCfg2`. -/
def wOuts2 : List IterOutput := [.pairOut 0 entA "hello"]

/-- Two-entry configuration whose second fetch fails with a transport
error. -/
def wCfg3 : IterConfig :=
  { entries := [entA, entB],
    fetch := fun i => if i = 0 then .ok blobHello else .error .transportError,
    window := 2 }

/-- Schedule driving `wCfg3` to its failure point. -/
def wSched3 : List IterEvent := [.complete 0, .consume, .complete 1, .consume]

/-- Final state of running `wSched3` on `wCfg3`. -/
def wState3 : IterState :=
  { nextToFetch := 2, nextToYield := 1, completed := [1, 0], failed := true }

/-- Outputs of running `wSched3` on `wCfg3`. -/
def wOuts3 : List IterOutput :=
  [.pairOut 0 entA "hello", .errOut 1 .transportError]

/-- Two-entry configuration whose second blob has an unrecognized
encoding tag. -/
def wCfg6 : IterConfig :=
  { entries := [entA, entB],
    fetch := fun i => if i = 0 then .ok blobHello else .ok blobBad,
    window := 2 }

/-- Schedule driving `wCfg6` past both fetch completions to the decode
failure. -/
def wSched6 : List IterEvent := [.complete 0, .complete 1, .consume, .consume]

/-- Final state of running `wSched6` on `wCfg6`. -/
def wState6 : IterState :=
  { nextToFetch := 2, nextToYield := 1, completed := [1, 0], failed := true }

/-- Outputs of running `wSched6` on `wCfg6`. -/
def wOuts6 : List IterOutput :=
  [.pairOut 0 entA "hello", .errOut 1 .decodeError]

/-- One-entry configuration with a window larger than the entry count. -/
def wCfg7 : IterConfig :=
  { entries := [entA], fetch := fun _ => .ok blobHello, window := 5 }

/-- Schedule exhausting `wCfg7`. -/
def wSched7 : List IterEvent := [.complete 0, .consume]

/-- Final state of running `wSched7` on `wCfg7` (same for window 1). -/
def wState7 : IterState :=
  { nextToFetch := 1, nextToYield := 1, completed := [0], failed := false }

/-- Outputs of running `wSched7` on `wCfg7` (same for window 1). -/
def wOuts7 : List IterOutput := [.pairOut 0 entA "hello"]

/-- A `GitlabClient` as constructed by `init` with token "tok" and the
default base URL and API version. -/
def cEx : GitlabClient :=
  { base_url := GitlabClient.DEFAULT_BASE_URL,
    api_version := GitlabClient.DEFAULT_API_VERSION, verbose := false,
    endpoints := GitlabClient.initialEndpoints,
    headers := GitlabClient.initialHeaders "tok" GitlabClient.DEFAULT_API_VERSION }

/-- A `GitLabIssuesClient` as constructed by `init` with token "tok". -/
def cIssuesEx : GitLabIssuesClient :=
  { base_url := GitlabClient.DEFAULT_BASE_URL,
    api_version := GitlabClient.DEFAULT_API_VERSION, verbose := false,
    endpoints := GitLabIssuesClient.initialEndpoints,
    headers := GitlabClient.initialHeaders "tok" GitlabClient.DEFAULT_API_VERSION }

/-- A non-2xx HTTP response (project not found). -/
def respNotFound : HttpResponse := { status := 404, text := "404 Project Not Found" }

/-- A successful HTTP response. -/
def respOk : HttpResponse := { status := 200, text := "{}" }

/-- Parse oracle that always succeeds with the default tree model. -/
def pjTree : String → Except String GitTreeResponseModel := fun _ => .ok default

/-- Parse oracle that always succeeds with the default branch model. -/
def pjBranch : String → Except String GitBranchResponseModel := fun _ => .ok default

/-- Empty dict heap. -/
def emptyStore : DictStore := ⟨[]⟩

/-- Heap client constructed in the empty heap. -/
def cObjEx : GitlabClientObj :=
  (GitlabClientObj.init emptyStore "tok" GitlabClient.DEFAULT_BASE_URL
    GitlabClient.DEFAULT_API_VERSION false).1

/-- Heap after constructing `cObjEx`. -/
def stObjEx : DictStore :=
  (GitlabClientObj.init emptyStore "tok" GitlabClient.DEFAULT_BASE_URL
    GitlabClient.DEFAULT_API_VERSION false).2

/-- A sample issue labelled "bug" and "ui". -/
def issueEx : Issue := { labels := [⟨"bug"⟩, ⟨"ui"⟩] }

/-! # Theorems

First the shared lemmas about the iterator's reachable states, then one
theorem (plus witness / counterexample where applicable) per claim. -/

/-- The invariant holds in the initial state with the empty trace. -/
theorem iterInv_init (cfg : IterConfig) : IterInv cfg (initState cfg) [] := by
  unfold IterInv initState
  refine ⟨Nat.zero_le _, Nat.min_le_right _ _, ?_, ?_, ?_⟩
  · simpa using Nat.min_le_left cfg.window cfg.entries.length
  · intro i hi; simp at hi
  · simp [AllOkBelow]

/-- Every valid event preserves the invariant, extending the trace by
the event's output. -/
theorem applyEvent_inv {cfg : IterConfig} {s s' : IterState} {ev : IterEvent}
    {out : Option IterOutput} {outs : List IterOutput}
    (hI : IterInv cfg s outs)
    (h : applyEvent cfg s ev = some (s', out)) :
    IterInv cfg s' (outs ++ out.toList) := by
  obtain ⟨h1, h2, h3, h4, h5⟩ := hI
  cases ev with
  | complete i =>
    simp only [applyEvent] at h
    by_cases hc : i < s.nextToFetch ∧ ¬ i ∈ s.completed
    case pos =>
      rw [if_pos hc] at h
      simp only [Option.some.injEq, Prod.mk.injEq] at h
      obtain ⟨rfl, rfl⟩ := h
      refine ⟨h1, h2, h3, ?_, ?_⟩
      · intro j hj
        rcases List.mem_cons.mp hj with rfl | hj'
        · exact hc.1
        · exact h4 j hj'
      · simpa using h5
    case neg =>
      rw [if_neg hc] at h
      exact Option.noConfusion h
  | consume =>
    simp only [applyEvent] at h
    by_cases hc : s.failed = false ∧ s.nextToYield < cfg.entries.length ∧
        s.nextToYield ∈ s.completed
    case pos =>
      rw [if_pos hc] at h
      obtain ⟨hfail, hyN, hycomp⟩ := hc
      simp only [hfail, if_false, Bool.false_eq_true] at h5
      obtain ⟨hallok, houts⟩ := h5
      have hyf : s.nextToYield < s.nextToFetch := h4 _ hycomp
      cases hfetch : cfg.fetch s.nextToYield with
      | error e =>
        simp only [hfetch] at h
        simp only [Option.some.injEq, Prod.mk.injEq] at h
        obtain ⟨rfl, rfl⟩ := h
        refine ⟨h1, h2, h3, h4, ?_⟩
        simp only [if_true]
        refine ⟨hyN, hallok, e, ?_, ?_⟩
        · unfold decodedAt; rw [hfetch]
        · rw [houts]; simp
      | ok blob =>
        simp only [hfetch] at h
        cases hdec : decodeBlobContent blob with
        | error e =>
          simp only [hdec] at h
          simp only [Option.some.injEq, Prod.mk.injEq] at h
          obtain ⟨rfl, rfl⟩ := h
          refine ⟨h1, h2, h3, h4, ?_⟩
          simp only [if_true]
          refine ⟨hyN, hallok, e, ?_, ?_⟩
          · unfold decodedAt; rw [hfetch]; exact hdec
          · rw [houts]; simp
        | ok content =>
          simp only [hdec] at h
          simp only [Option.some.injEq, Prod.mk.injEq] at h
          obtain ⟨rfl, rfl⟩ := h
          have hdecAt : decodedAt cfg s.nextToYield = .ok content := by
            unfold decodedAt; rw [hfetch]; exact hdec
          have hle1 : s.nextToFetch ≤
              (if s.nextToFetch < cfg.entries.length then s.nextToFetch + 1
               else s.nextToFetch) := by
            split <;> omega
          have hle2 :
              (if s.nextToFetch < cfg.entries.length then s.nextToFetch + 1
               else s.nextToFetch) ≤ cfg.entries.length := by
            split <;> omega
          have hle3 :
              (if s.nextToFetch < cfg.entries.length then s.nextToFetch + 1
               else s.nextToFetch) ≤ s.nextToFetch + 1 := by
            split <;> omega
          refine ⟨?_, hle2, ?_, ?_, ?_⟩
          · show s.nextToYield + 1 ≤
              (if s.nextToFetch < cfg.entries.length then s.nextToFetch + 1
               else s.nextToFetch)
            omega
          · show (if s.nextToFetch < cfg.entries.length then s.nextToFetch + 1
               else s.nextToFetch) ≤ s.nextToYield + 1 + cfg.window
            omega
          · intro j hj
            exact Nat.lt_of_lt_of_le (h4 j hj) hle1
          · simp only [hfail, if_false, Bool.false_eq_true]
            constructor
            · intro i hi
              rcases Nat.lt_succ_iff_lt_or_eq.mp hi with hi' | rfl
              · exact hallok i hi'
              · rw [hdecAt]; rfl
            · rw [houts, List.range_succ, List.map_append]
              simp [pairAt, hdecAt, Except.toOption]
    case neg =>
      rw [if_neg hc] at h
      exact Option.noConfusion h

/-- Running any valid schedule preserves the invariant, appending the
observed outputs to the trace. -/
theorem execSchedule_inv {cfg : IterConfig} :
    ∀ (sched : List IterEvent) (s : IterState) (acc : List IterOutput)
      (s' : IterState) (outs : List IterOutput),
      IterInv cfg s acc →
      execSchedule cfg s sched = some (s', outs) →
      IterInv cfg s' (acc ++ outs) := by
  intro sched
  induction sched with
  | nil =>
    intro s acc s' outs hI h
    simp only [execSchedule, Option.some.injEq, Prod.mk.injEq] at h
    obtain ⟨rfl, rfl⟩ := h
    simpa using hI
  | cons ev rest ih =>
    intro s acc s' outs hI h
    simp only [execSchedule] at h
    cases happ : applyEvent cfg s ev with
    | none =>
      simp only [happ] at h
      exact Option.noConfusion h
    | some p =>
      obtain ⟨s1, out⟩ := p
      simp only [happ] at h
      cases hrest : execSchedule cfg s1 rest with
      | none =>
        simp only [hrest] at h
        exact Option.noConfusion h
      | some q =>
        obtain ⟨s2, outs1⟩ := q
        simp only [hrest, Option.some.injEq, Prod.mk.injEq] at h
        obtain ⟨rfl, rfl⟩ := h
        have hI1 := applyEvent_inv hI happ
        have := ih s1 (acc ++ out.toList) s2 outs1 hI1 hrest
        simpa [List.append_assoc] using this

/-- Every state reached from the initial state satisfies the invariant
with the full observed trace. -/
theorem exec_from_init {cfg : IterConfig} {sched : List IterEvent}
    {s : IterState} {outs : List IterOutput}
    (h : execSchedule cfg (initState cfg) sched = some (s, outs)) :
    IterInv cfg s outs := by
  have h' := execSchedule_inv sched (initState cfg) [] s outs (iterInv_init cfg) h
  simpa using h'

/-- A terminal state that has not failed has consumed every entry. -/
theorem terminal_not_failed_yield {cfg : IterConfig} {s : IterState}
    {outs : List IterOutput} (hI : IterInv cfg s outs)
    (ht : hasNext cfg s = false) (hfail : s.failed = false) :
    s.nextToYield = cfg.entries.length := by
  obtain ⟨h1, h2, _h3, _h4, _h5⟩ := hI
  unfold hasNext at ht
  rw [hfail] at ht
  simp at ht
  omega

/-- In a terminal run whose first failing entry is `k`, the traversal
stopped exactly at `k`: the trace is the ordered pairs for `0..k-1`
followed by the error of entry `k`. -/
theorem terminal_trace_of_firstBad {cfg : IterConfig} {s : IterState}
    {outs : List IterOutput} {k : Nat} {e : IterError}
    (hI : IterInv cfg s outs)
    (hk : decodedAt cfg k = .error e) (hok : AllOkBelow cfg k)
    (hkN : k < cfg.entries.length)
    (hterm : hasNext cfg s = false) :
    s.failed = true ∧ s.nextToYield = k ∧
      outs = (List.range k).map (pairAt cfg) ++ [.errOut k e] := by
  obtain ⟨h1, h2, h3, h4, h5⟩ := hI
  cases hfail : s.failed with
  | false =>
    exfalso
    have hyN : s.nextToYield = cfg.entries.length :=
      terminal_not_failed_yield ⟨h1, h2, h3, h4, h5⟩ hterm hfail
    rw [hfail] at h5
    simp only [Bool.false_eq_true, if_false] at h5
    have hokk := h5.1 k (by omega)
    rw [hk] at hokk
    exact Bool.noConfusion hokk
  | true =>
    rw [hfail] at h5
    simp only [if_true] at h5
    obtain ⟨hyN', hallok', e', he', houts'⟩ := h5
    have hyk : s.nextToYield = k := by
      rcases Nat.lt_trichotomy s.nextToYield k with hlt | heq | hgt
      · exfalso
        have := hok _ hlt
        rw [he'] at this
        exact Bool.noConfusion this
      · exact heq
      · exfalso
        have := hallok' _ hgt
        rw [hk] at this
        exact Bool.noConfusion this
    subst hyk
    rw [he'] at hk
    injection hk with hk'
    subst hk'
    exact ⟨rfl, rfl, houts'⟩

/-- Fact: `decodedAt` only depends on the fetch oracle. -/
theorem decodedAt_congr {cfg cfg' : IterConfig} (hf : cfg.fetch = cfg'.fetch) :
    decodedAt cfg = decodedAt cfg' := by
  funext i
  unfold decodedAt
  rw [hf]

/-- Fact: `pairAt` only depends on the entries and the fetch oracle. -/
theorem pairAt_congr {cfg cfg' : IterConfig} (hent : cfg.entries = cfg'.entries)
    (hf : cfg.fetch = cfg'.fetch) : pairAt cfg = pairAt cfg' := by
  funext i
  unfold pairAt
  rw [hent, decodedAt_congr hf]

/-- Two terminal runs over the same entries and the same fetch oracle —
regardless of the window sizes and the schedules — observe the same
output trace. -/
theorem terminal_outs_eq {cfg cfg' : IterConfig} {s s' : IterState}
    {outs outs' : List IterOutput}
    (hent : cfg.entries = cfg'.entries) (hf : cfg.fetch = cfg'.fetch)
    (hI : IterInv cfg s outs) (hI' : IterInv cfg' s' outs')
    (ht : hasNext cfg s = false) (ht' : hasNext cfg' s' = false) :
    outs = outs' := by
  have hdec := decodedAt_congr hf
  have hpair := pairAt_congr hent hf
  obtain ⟨h1, h2, h3, h4, h5⟩ := hI
  obtain ⟨h1', h2', h3', h4', h5'⟩ := hI'
  cases hfail : s.failed with
  | false =>
    have hyN : s.nextToYield = cfg.entries.length :=
      terminal_not_failed_yield ⟨h1, h2, h3, h4, h5⟩ ht hfail
    rw [hfail] at h5
    simp only [Bool.false_eq_true, if_false] at h5
    cases hfail' : s'.failed with
    | false =>
      have hyN' : s'.nextToYield = cfg'.entries.length :=
        terminal_not_failed_yield ⟨h1', h2', h3', h4', h5'⟩ ht' hfail'
      rw [hfail'] at h5'
      simp only [Bool.false_eq_true, if_false] at h5'
      rw [h5.2, h5'.2, hyN, hyN', hent, hpair]
    | true =>
      exfalso
      rw [hfail'] at h5'
      simp only [if_true] at h5'
      obtain ⟨hyN'', _hallok', e', he', _houts'⟩ := h5'
      have hlt : s'.nextToYield < cfg.entries.length := hent ▸ hyN''
      have := h5.1 s'.nextToYield (by omega)
      rw [hdec, he'] at this
      exact Bool.noConfusion this
  | true =>
    rw [hfail] at h5
    simp only [if_true] at h5
    obtain ⟨hyN1, hallok1, e1, he1, houts1⟩ := h5
    cases hfail' : s'.failed with
    | false =>
      exfalso
      have hyN' : s'.nextToYield = cfg'.entries.length :=
        terminal_not_failed_yield ⟨h1', h2', h3', h4', h5'⟩ ht' hfail'
      rw [hfail'] at h5'
      simp only [Bool.false_eq_true, if_false] at h5'
      have hlt : s.nextToYield < cfg'.entries.length := hent ▸ hyN1
      have := h5'.1 s.nextToYield (by omega)
      rw [← hdec, he1] at this
      exact Bool.noConfusion this
    | true =>
      rw [hfail'] at h5'
      simp only [if_true] at h5'
      obtain ⟨hyN2, hallok2, e2, he2, houts2⟩ := h5'
      have hyy : s.nextToYield = s'.nextToYield := by
        rcases Nat.lt_trichotomy s.nextToYield s'.nextToYield with hlt | heq | hgt
        · exfalso
          have := hallok2 _ hlt
          rw [← hdec, he1] at this
          exact Bool.noConfusion this
        · exact heq
        · exfalso
          have := hallok1 _ hgt
          rw [hdec, he2] at this
          exact Bool.noConfusion this
      have hee : e1 = e2 := by
        rw [hdec, hyy, he2] at he1
        injection he1 with h
        exact h.symm
      rw [houts1, houts2, hyy, hee, hpair]

/-- The yielded-pairs projection of an ordered pair trace. -/
theorem yieldedPairs_map_pairAt (cfg : IterConfig) (l : List Nat) :
    yieldedPairs (l.map (pairAt cfg)) =
      l.map (fun i => (i, cfg.entries.getD i default)) := by
  induction l with
  | nil => rfl
  | cons a l ih =>
    simp only [List.map_cons, yieldedPairs, List.filterMap_cons] at ih ⊢
    rw [show pairAt cfg a = .pairOut a (cfg.entries.getD a default)
      ((decodedAt cfg a).toOption.getD "") from rfl]
    simpa using ih

/-- A trailing error output contributes no yielded pair. -/
theorem yieldedPairs_append_err (xs : List IterOutput) (k : Nat) (e : IterError) :
    yieldedPairs (xs ++ [.errOut k e]) = yieldedPairs xs := by
  simp [yieldedPairs]

/-- C1: for every entry sequence `E` given to the buffered tree iterator
and every order in which the underlying blob fetches complete (every
valid event schedule, with completions injected adversarially), the
pairs yielded to the consumer are the pairs of entries `0, 1, 2, ...` in
exactly the input entry order — the `j`-th yielded pair is the pair of
entry `j`, so the consumer never observes results out of order. -/
theorem c1_order_preservation (cfg : IterConfig) (sched : List IterEvent)
    (s : IterState) (outs : List IterOutput)
    (hW : 1 ≤ cfg.window)
    (h : execSchedule cfg (initState cfg) sched = some (s, outs)) :
    yieldedPairs outs =
      (List.range (yieldedPairs outs).length).map
        (fun i => (i, cfg.entries.getD i default)) := by
  obtain ⟨_h1, _h2, _h3, _h4, h5⟩ := exec_from_init h
  cases hfail : s.failed with
  | false =>
    rw [hfail] at h5
    simp only [Bool.false_eq_true, if_false] at h5
    rw [h5.2]
    simp [yieldedPairs_map_pairAt]
  | true =>
    rw [hfail] at h5
    simp only [if_true] at h5
    obtain ⟨_, _, e, _, houts⟩ := h5
    rw [houts, yieldedPairs_append_err]
    simp [yieldedPairs_map_pairAt]

/-- C1 witness: a concrete two-entry run whose fetches complete out of
order (entry 1 before entry 0) still yields the pairs in entry order. -/
theorem c1_order_preservation_witness :
    1 ≤ wCfg1.window ∧
    execSchedule wCfg1 (initState wCfg1) wSched1 = some (wState1, wOuts1) ∧
    yieldedPairs wOuts1 =
      (List.range (yieldedPairs wOuts1).length).map
        (fun i => (i, wCfg1.entries.getD i default)) :=
  ⟨by decide, by rfl,
   c1_order_preservation wCfg1 wSched1 wState1 wOuts1 (by decide) (by rfl)⟩

/-- C2: bounded concurrency — in every state reachable by any schedule,
for any window `W ≥ 1` and any entry count, the number of fetches
outstanding (started but not yet consumed, `nextToFetch - nextToYield`)
is at most `W`. -/
theorem c2_bounded_concurrency (cfg : IterConfig) (sched : List IterEvent)
    (s : IterState) (outs : List IterOutput)
    (hW : 1 ≤ cfg.window)
    (h : execSchedule cfg (initState cfg) sched = some (s, outs)) :
    s.nextToFetch - s.nextToYield ≤ cfg.window := by
  obtain ⟨h1, _h2, h3, _h4, _h5⟩ := exec_from_init h
  omega

/-- C2 witness: a concrete mid-iteration state with window 1 has at most
one outstanding fetch. -/
theorem c2_bounded_concurrency_witness :
    1 ≤ wCfg2.window ∧
    execSchedule wCfg2 (initState wCfg2) wSched2 = some (wState2, wOuts2) ∧
    wState2.nextToFetch - wState2.nextToYield ≤ wCfg2.window :=
  ⟨by decide, by rfl,
   c2_bounded_concurrency wCfg2 wSched2 wState2 wOuts2 (by decide) (by rfl)⟩

/-- C3: failure isolation — if the fetch for entry `k` fails (and the
entries before `k` are sound), then in every completed traversal the
pairs for entries `0..k-1` were yielded successfully and in order, the
failure is surfaced exactly at the point where entry `k`'s pair would
have been yielded, and no pair for any entry `≥ k` is ever yielded. -/
theorem c3_failure_isolation (cfg : IterConfig) (sched : List IterEvent)
    (s : IterState) (outs : List IterOutput) (k : Nat) (e : IterError)
    (hfetch : cfg.fetch k = .error e)
    (hok : AllOkBelow cfg k) (hkN : k < cfg.entries.length)
    (h : execSchedule cfg (initState cfg) sched = some (s, outs))
    (hterm : hasNext cfg s = false) :
    outs = (List.range k).map (pairAt cfg) ++ [.errOut k e] ∧
    (yieldedPairs outs).all (fun p => decide (p.1 < k)) = true := by
  have hdecAt : decodedAt cfg k = .error e := by
    unfold decodedAt; rw [hfetch]
  obtain ⟨_, _, houts⟩ :=
    terminal_trace_of_firstBad (exec_from_init h) hdecAt hok hkN hterm
  refine ⟨houts, ?_⟩
  rw [houts, yieldedPairs_append_err, yieldedPairs_map_pairAt]
  simp only [List.all_eq_true, List.mem_map, List.mem_range]
  rintro p ⟨i, hi, rfl⟩
  simpa using hi

/-- C3 witness: a concrete run whose second fetch fails yields the first
pair, surfaces the transport error in place of entry 1, and yields
nothing after it. -/
theorem c3_failure_isolation_witness :
    wCfg3.fetch 1 = .error .transportError ∧
    AllOkBelow wCfg3 1 ∧
    1 < wCfg3.entries.length ∧
    execSchedule wCfg3 (initState wCfg3) wSched3 = some (wState3, wOuts3) ∧
    hasNext wCfg3 wState3 = false ∧
    (wOuts3 = (List.range 1).map (pairAt wCfg3) ++ [.errOut 1 .transportError] ∧
     (yieldedPairs wOuts3).all (fun p => decide (p.1 < 1)) = true) :=
  ⟨by rfl, by unfold AllOkBelow; decide, by decide, by rfl, by rfl,
   c3_failure_isolation wCfg3 wSched3 wState3 wOuts3 1 .transportError
     (by rfl) (by unfold AllOkBelow; decide) (by decide) (by rfl) (by rfl)⟩

/-- C6: decode correctness — base64 content is decoded before being
exposed (in particular `"aGVsbG8="` yields `"hello"`); an unrecognized
encoding tag fails with `DecodeError`; the failure happens at the point
of yielding (completion events never emit anything, so never a decode
error); pending fetches can still complete after a failure; and in a
completed traversal the decode error of entry `k` is surfaced exactly
in place of entry `k`'s pair, after the intact pairs `0..k-1`. -/
theorem c6_decode_correctness :
    (decodeBlobContent blobHello = .ok "hello") ∧
    (∀ blob : GitBlobResponseModel, blob.encoding ≠ "base64" →
      decodeBlobContent blob = .error .decodeError) ∧
    (∀ (cfg : IterConfig) (s s' : IterState) (i : Nat) (out : Option IterOutput),
      applyEvent cfg s (.complete i) = some (s', out) → out = none) ∧
    (∀ (cfg : IterConfig) (s : IterState) (i : Nat),
      i < s.nextToFetch → ¬ i ∈ s.completed →
      (applyEvent cfg s (.complete i)).isSome = true) ∧
    (∀ (cfg : IterConfig) (sched : List IterEvent) (s : IterState)
       (outs : List IterOutput) (k : Nat) (blob : GitBlobResponseModel),
      cfg.fetch k = .ok blob → blob.encoding ≠ "base64" →
      AllOkBelow cfg k → k < cfg.entries.length →
      execSchedule cfg (initState cfg) sched = some (s, outs) →
      hasNext cfg s = false →
      outs = (List.range k).map (pairAt cfg) ++ [.errOut k .decodeError]) := by
  refine ⟨by rfl, ?_, ?_, ?_, ?_⟩
  · intro blob henc
    unfold decodeBlobContent
    rw [if_neg henc]
  · intro cfg s s' i out h
    simp only [applyEvent] at h
    by_cases hc : i < s.nextToFetch ∧ ¬ i ∈ s.completed
    · rw [if_pos hc] at h
      simp only [Option.some.injEq, Prod.mk.injEq] at h
      exact h.2.symm
    · rw [if_neg hc] at h
      exact Option.noConfusion h
  · intro cfg s i hi hmem
    simp only [applyEvent]
    rw [if_pos ⟨hi, hmem⟩]
    rfl
  · intro cfg sched s outs k blob hfetch henc hok hkN h hterm
    have hdecAt : decodedAt cfg k = .error .decodeError := by
      unfold decodedAt
      rw [hfetch]
      show decodeBlobContent blob = _
      unfold decodeBlobContent
      rw [if_neg henc]
    obtain ⟨_, _, houts⟩ :=
      terminal_trace_of_firstBad (exec_from_init h) hdecAt hok hkN hterm
    exact houts

/-- C6 witness: blob 0 decodes from base64 to "hello" and is yielded;
blob 1 carries encoding "unknown", both fetches complete without error,
and the decode error is surfaced exactly when entry 1 is yielded. -/
theorem c6_decode_correctness_witness :
    wCfg6.fetch 1 = .ok blobBad ∧
    blobBad.encoding ≠ "base64" ∧
    AllOkBelow wCfg6 1 ∧
    1 < wCfg6.entries.length ∧
    execSchedule wCfg6 (initState wCfg6) wSched6 = some (wState6, wOuts6) ∧
    hasNext wCfg6 wState6 = false ∧
    wOuts6 = (List.range 1).map (pairAt wCfg6) ++ [.errOut 1 .decodeError] :=
  ⟨by rfl, by decide, by unfold AllOkBelow; decide, by decide, by rfl, by rfl,
   c6_decode_correctness.2.2.2.2 wCfg6 wSched6 wState6 wOuts6 1 blobBad
     (by rfl) (by decide) (by unfold AllOkBelow; decide) (by decide)
     (by rfl) (by rfl)⟩

/-- C7: window-size degenerate case — for a window at least as large as
the entry count, every completed traversal observes exactly the same
output trace (same pairs, same decoded contents) as every completed
traversal of the same entries with window 1; and the empty entry
sequence yields zero items and immediately signals end-of-sequence for
every window. -/
theorem c7_window_degenerate :
    (∀ (cfg : IterConfig) (sched sched' : List IterEvent)
       (s s' : IterState) (outs outs' : List IterOutput),
      cfg.entries.length ≤ cfg.window →
      execSchedule cfg (initState cfg) sched = some (s, outs) →
      hasNext cfg s = false →
      execSchedule (windowOne cfg) (initState (windowOne cfg)) sched' =
        some (s', outs') →
      hasNext (windowOne cfg) s' = false →
      outs = outs') ∧
    (∀ cfg : IterConfig, cfg.entries = [] →
      hasNext cfg (initState cfg) = false ∧
      (∀ (sched : List IterEvent) (s : IterState) (outs : List IterOutput),
        execSchedule cfg (initState cfg) sched = some (s, outs) →
        outs = [])) := by
  constructor
  · intro cfg sched sched' s s' outs outs' hWN h1 t1 h2 t2
    exact @terminal_outs_eq cfg (windowOne cfg) s s' outs outs' rfl rfl
      (exec_from_init h1) (exec_from_init h2) t1 t2
  · intro cfg hemp
    constructor
    · unfold hasNext initState
      rw [hemp]
      simp
    · intro sched s outs h
      obtain ⟨h1, h2, _h3, _h4, h5⟩ := exec_from_init h
      rw [hemp] at h2
      simp only [List.length_nil] at h2
      cases hfail : s.failed with
      | false =>
        rw [hfail] at h5
        simp only [Bool.false_eq_true, if_false] at h5
        rw [h5.2]
        have : s.nextToYield = 0 := by omega
        rw [this]
        rfl
      | true =>
        exfalso
        rw [hfail] at h5
        simp only [if_true] at h5
        rw [hemp] at h5
        simp only [List.length_nil] at h5
        exact Nat.not_lt_zero _ h5.1

/-- C7 witness: the one-entry configuration with window 5 and its
window-1 counterpart, each run to exhaustion, observe the same trace. -/
theorem c7_window_degenerate_witness :
    wCfg7.entries.length ≤ wCfg7.window ∧
    execSchedule wCfg7 (initState wCfg7) wSched7 = some (wState7, wOuts7) ∧
    hasNext wCfg7 wState7 = false ∧
    execSchedule (windowOne wCfg7) (initState (windowOne wCfg7)) wSched7 =
      some (wState7, wOuts7) ∧
    hasNext (windowOne wCfg7) wState7 = false ∧
    wOuts7 = wOuts7 :=
  ⟨by decide, by rfl, by rfl, by rfl, by rfl,
   c7_window_degenerate.1 wCfg7 wSched7 wSched7 wState7 wState7 wOuts7 wOuts7
     (by decide) (by rfl) (by rfl) (by rfl) (by rfl)⟩

/-- A successfully constructed `GitlabClient` carries the endpoint dict
assigned by `__init__`. -/
theorem init_endpoints {tok env : Option String} {b a : String} {v : Bool}
    {c : GitlabClient} (h : GitlabClient.init tok env b a v = .ok c) :
    c.endpoints = GitlabClient.initialEndpoints := by
  unfold GitlabClient.init at h
  cases tok with
  | none =>
    cases env with
    | none => exact Except.noConfusion h
    | some t =>
      injection h with h'
      subst h'
      rfl
  | some t =>
    injection h with h'
    subst h'
    rfl

/-- Lemma: `GitlabClient.request` fails only with the endpoint `KeyError` or a
re-raised transport error — never any other exception kind. -/
theorem request_error_kinds {c : GitlabClient} {e m : String}
    {hdrs : List (String × String)} {hr : Except String HttpResponse}
    {x : ClientError} (h : GitlabClient.request c e m hdrs hr = .error x) :
    (∃ key, x = .keyError key) ∨ (∃ msg, x = .transport msg) := by
  unfold GitlabClient.request at h
  cases hl : lookupDict c.endpoints e with
  | none =>
    simp only [hl, Except.error.injEq] at h
    exact Or.inl ⟨e, h.symm⟩
  | some u =>
    simp only [hl] at h
    cases hr with
    | error excp =>
      simp only [Except.error.injEq] at h
      exact Or.inr ⟨excp, h.symm⟩
    | ok resp => exact Except.noConfusion h

/-- Lemma: `GitlabClient.get_tree` fails only with `KeyError`, a transport
error, or a parse error. -/
theorem get_tree_error_kinds {c : GitlabClient} {o r s : String}
    {hr : Except String HttpResponse}
    {pj : String → Except String GitTreeResponseModel} {x : ClientError}
    (h : GitlabClient.get_tree c o r s hr pj = .error x) :
    (∃ key, x = .keyError key) ∨ (∃ msg, x = .transport msg) ∨
      (∃ msg, x = .parse msg) := by
  unfold GitlabClient.get_tree at h
  cases hreq : GitlabClient.request c "getTree" "GET" [] hr with
  | error e =>
    simp only [hreq, Except.error.injEq] at h
    subst h
    rcases request_error_kinds hreq with ⟨key, rfl⟩ | ⟨msg, rfl⟩
    · exact Or.inl ⟨key, rfl⟩
    · exact Or.inr (Or.inl ⟨msg, rfl⟩)
  | ok resp =>
    simp only [hreq] at h
    cases hpj : pj resp.text with
    | error msg =>
      simp only [hpj, Except.error.injEq] at h
      exact Or.inr (Or.inr ⟨msg, h.symm⟩)
    | ok model =>
      simp only [hpj] at h
      exact Except.noConfusion h

/-- Lemma: `GitlabClient.get_blob` fails only with `KeyError`, a transport
error, or a parse error. -/
theorem get_blob_error_kinds {c : GitlabClient} {o r s : String}
    {hr : Except String HttpResponse}
    {pj : String → Except String GitBlobResponseModel} {x : ClientError}
    (h : GitlabClient.get_blob c o r s hr pj = .error x) :
    (∃ key, x = .keyError key) ∨ (∃ msg, x = .transport msg) ∨
      (∃ msg, x = .parse msg) := by
  unfold GitlabClient.get_blob at h
  cases hreq : GitlabClient.request c "getBlob" "GET" [] hr with
  | error e =>
    simp only [hreq, Except.error.injEq] at h
    subst h
    rcases request_error_kinds hreq with ⟨key, rfl⟩ | ⟨msg, rfl⟩
    · exact Or.inl ⟨key, rfl⟩
    · exact Or.inr (Or.inl ⟨msg, rfl⟩)
  | ok resp =>
    simp only [hreq] at h
    cases hpj : pj resp.text with
    | error msg =>
      simp only [hpj, Except.error.injEq] at h
      exact Or.inr (Or.inr ⟨msg, h.symm⟩)
    | ok model =>
      simp only [hpj] at h
      exact Except.noConfusion h

/-- Lemma: `GitlabClient.get_commit` fails only with `KeyError`, a transport
error, or a parse error. -/
theorem get_commit_error_kinds {c : GitlabClient} {o r s : String}
    {hr : Except String HttpResponse}
    {pj : String → Except String GitCommitResponseModel} {x : ClientError}
    (h : GitlabClient.get_commit c o r s hr pj = .error x) :
    (∃ key, x = .keyError key) ∨ (∃ msg, x = .transport msg) ∨
      (∃ msg, x = .parse msg) := by
  unfold GitlabClient.get_commit at h
  cases hreq : GitlabClient.request c "getCommit" "GET" [] hr with
  | error e =>
    simp only [hreq, Except.error.injEq] at h
    subst h
    rcases request_error_kinds hreq with ⟨key, rfl⟩ | ⟨msg, rfl⟩
    · exact Or.inl ⟨key, rfl⟩
    · exact Or.inr (Or.inl ⟨msg, rfl⟩)
  | ok resp =>
    simp only [hreq] at h
    cases hpj : pj resp.text with
    | error msg =>
      simp only [hpj, Except.error.injEq] at h
      exact Or.inr (Or.inr ⟨msg, h.symm⟩)
    | ok model =>
      simp only [hpj] at h
      exact Except.noConfusion h

/-- Lemma: `GitlabClient.get_branch` fails only with the `ValueError` of the
missing-argument check, `KeyError`, a transport error, or a parse
error. -/
theorem get_branch_error_kinds {c : GitlabClient} {o r : String}
    {br bn : Option String} {hr : Except String HttpResponse}
    {pj : String → Except String GitBranchResponseModel} {x : ClientError}
    (h : GitlabClient.get_branch c o r br bn hr pj = .error x) :
    (∃ msg, x = .valueError msg) ∨ (∃ key, x = .keyError key) ∨
      (∃ msg, x = .transport msg) ∨ (∃ msg, x = .parse msg) := by
  unfold GitlabClient.get_branch at h
  cases br with
  | none =>
    cases bn with
    | none =>
      simp only [Except.error.injEq] at h
      exact Or.inl ⟨"Either branch or branch_name must be provided.", h.symm⟩
    | some bnv =>
      cases hreq : GitlabClient.request c "getBranch" "GET" [] hr with
      | error e =>
        simp only [hreq, Except.error.injEq] at h
        subst h
        rcases request_error_kinds hreq with ⟨key, rfl⟩ | ⟨msg, rfl⟩
        · exact Or.inr (Or.inl ⟨key, rfl⟩)
        · exact Or.inr (Or.inr (Or.inl ⟨msg, rfl⟩))
      | ok resp =>
        simp only [hreq] at h
        cases hpj : pj resp.text with
        | error msg =>
          simp only [hpj, Except.error.injEq] at h
          exact Or.inr (Or.inr (Or.inr ⟨msg, h.symm⟩))
        | ok model =>
          simp only [hpj] at h
          exact Except.noConfusion h
  | some bv =>
    cases hreq : GitlabClient.request c "getBranch" "GET" [] hr with
    | error e =>
      simp only [hreq, Except.error.injEq] at h
      subst h
      rcases request_error_kinds hreq with ⟨key, rfl⟩ | ⟨msg, rfl⟩
      · exact Or.inr (Or.inl ⟨key, rfl⟩)
      · exact Or.inr (Or.inr (Or.inl ⟨msg, rfl⟩))
    | ok resp =>
      simp only [hreq] at h
      cases hpj : pj resp.text with
      | error msg =>
        simp only [hpj, Except.error.injEq] at h
        exact Or.inr (Or.inr (Or.inr ⟨msg, h.symm⟩))
      | ok model =>
        simp only [hpj] at h
        exact Except.noConfusion h

/-- C4 counterexample: a non-2xx HTTP status does not make
`GitlabClient.request` (and hence `get_tree`/`get_blob`) fail — for the
constructed client and a 404 response, `request` returns the response
successfully instead of raising, contradicting the claim that every
non-2xx status fails with a `TransportError`. -/
theorem c4_counterexample :
    GitlabClient.request cEx "getTree" "GET" [] (.ok respNotFound) =
      .ok respNotFound ∧
    (GitlabClient.request cEx "getTree" "GET" [] (.ok respNotFound)).isOk
      = true :=
  ⟨rfl, rfl⟩

/-- C4 amended: for `GitlabClient` (gitlab_repo), a network-level HTTP
failure propagates immediately as a re-raised transport error, with no
retry, through `request`, `get_tree` and `get_blob`; a non-2xx response
does not raise there — it is returned to the caller; the issues
client's `request` additionally fails (with the `raise_for_status`
error, also an `httpx.HTTPError`) on every non-2xx response and
succeeds on every 2xx response. -/
theorem c4_transport_error_amended :
    (∀ (c : GitlabClient) (e m : String) (hdrs : List (String × String))
       (excp : String),
      GitlabClient.request c e m hdrs (.error excp) = .error (.transport excp) ∨
      GitlabClient.request c e m hdrs (.error excp) = .error (.keyError e)) ∧
    (∀ (c : GitlabClient) (e m : String) (hdrs : List (String × String))
       (excp : String),
      (lookupDict c.endpoints e).isSome = true →
      GitlabClient.request c e m hdrs (.error excp) =
        .error (.transport excp)) ∧
    (∀ (c : GitlabClient) (e m : String) (hdrs : List (String × String))
       (resp : HttpResponse),
      (lookupDict c.endpoints e).isSome = true →
      GitlabClient.request c e m hdrs (.ok resp) = .ok resp) ∧
    (∀ (tok env : Option String) (b a : String) (v : Bool) (c : GitlabClient),
      GitlabClient.init tok env b a v = .ok c →
      ∀ (owner repo sha excp : String)
        (pj : String → Except String GitTreeResponseModel),
        GitlabClient.get_tree c owner repo sha (.error excp) pj =
          .error (.transport excp)) ∧
    (∀ (tok env : Option String) (b a : String) (v : Bool) (c : GitlabClient),
      GitlabClient.init tok env b a v = .ok c →
      ∀ (owner repo sha excp : String)
        (pj : String → Except String GitBlobResponseModel),
        GitlabClient.get_blob c owner repo sha (.error excp) pj =
          .error (.transport excp)) ∧
    (∀ (c : GitLabIssuesClient) (e m : String)
       (hdrs params : List (String × String)) (excp : String),
      (lookupDict c.endpoints e).isSome = true →
      GitLabIssuesClient.request c e m hdrs params (.error excp) =
        .error (.transport excp)) ∧
    (∀ (c : GitLabIssuesClient) (e m : String)
       (hdrs params : List (String × String)) (resp : HttpResponse),
      (lookupDict c.endpoints e).isSome = true →
      ¬ (200 ≤ resp.status ∧ resp.status < 300) →
      GitLabIssuesClient.request c e m hdrs params (.ok resp) =
        .error (.httpStatus resp.status)) ∧
    (∀ (c : GitLabIssuesClient) (e m : String)
       (hdrs params : List (String × String)) (resp : HttpResponse),
      (lookupDict c.endpoints e).isSome = true →
      200 ≤ resp.status ∧ resp.status < 300 →
      GitLabIssuesClient.request c e m hdrs params (.ok resp) = .ok resp) := by
  refine ⟨?_, ?_, ?_, ?_, ?_, ?_, ?_, ?_⟩
  · intro c e m hdrs excp
    unfold GitlabClient.request
    cases hl : lookupDict c.endpoints e with
    | none => exact Or.inr rfl
    | some u => exact Or.inl rfl
  · intro c e m hdrs excp hsome
    unfold GitlabClient.request
    cases hl : lookupDict c.endpoints e with
    | none => rw [hl] at hsome; exact Bool.noConfusion hsome
    | some u => rfl
  · intro c e m hdrs resp hsome
    unfold GitlabClient.request
    cases hl : lookupDict c.endpoints e with
    | none => rw [hl] at hsome; exact Bool.noConfusion hsome
    | some u => rfl
  · intro tok env b a v c hinit owner repo sha excp pj
    unfold GitlabClient.get_tree GitlabClient.request
    rw [init_endpoints hinit]
    rfl
  · intro tok env b a v c hinit owner repo sha excp pj
    unfold GitlabClient.get_blob GitlabClient.request
    rw [init_endpoints hinit]
    rfl
  · intro c e m hdrs params excp hsome
    unfold GitLabIssuesClient.request
    cases hl : lookupDict c.endpoints e with
    | none => rw [hl] at hsome; exact Bool.noConfusion hsome
    | some u => rfl
  · intro c e m hdrs params resp hsome hstatus
    unfold GitLabIssuesClient.request
    cases hl : lookupDict c.endpoints e with
    | none => rw [hl] at hsome; exact Bool.noConfusion hsome
    | some u =>
      simp only []
      rw [if_neg hstatus]
  · intro c e m hdrs params resp hsome hstatus
    unfold GitLabIssuesClient.request
    cases hl : lookupDict c.endpoints e with
    | none => rw [hl] at hsome; exact Bool.noConfusion hsome
    | some u =>
      simp only []
      rw [if_pos hstatus]

/-- C4 witness: a concrete network failure on a known endpoint is
re-raised by `request` as the transport error. -/
theorem c4_transport_error_amended_witness :
    (lookupDict cEx.endpoints "getTree").isSome = true ∧
    GitlabClient.request cEx "getTree" "GET" [] (.error "timeout") =
      .error (.transport "timeout") :=
  ⟨by rfl,
   c4_transport_error_amended.2.1 cEx "getTree" "GET" [] "timeout" (by rfl)⟩

/-- C5: the credential check is eager — construction with no token
argument and no environment token fails with the `ValueError` about the
missing GitLab token (both clients); construction succeeds whenever a
token is supplied as argument or by the environment, installing the
bearer header; and no per-operation call on a successfully constructed
client can fail with that auth error (the operations' failures are
key/transport/parse — and, for `get_branch`, the missing-argument
`ValueError` — never the missing-token error). -/
theorem c5_eager_auth_check :
    (∀ (b a : String) (v : Bool),
      GitlabClient.init none none b a v = .error (.auth missingTokenMsg)) ∧
    (∀ (b a : String) (v : Bool),
      GitLabIssuesClient.init none none b a v = .error (.auth missingTokenMsg)) ∧
    (∀ (tok : String) (env : Option String) (b a : String) (v : Bool),
      GitlabClient.init (some tok) env b a v =
        .ok { base_url := b, api_version := a, verbose := v,
              endpoints := GitlabClient.initialEndpoints,
              headers := GitlabClient.initialHeaders tok a } ∧
      ("Authorization", "Bearer " ++ tok) ∈ GitlabClient.initialHeaders tok a) ∧
    (∀ (tok b a : String) (v : Bool),
      GitlabClient.init none (some tok) b a v =
        .ok { base_url := b, api_version := a, verbose := v,
              endpoints := GitlabClient.initialEndpoints,
              headers := GitlabClient.initialHeaders tok a }) ∧
    (∀ (tok env : Option String) (b a : String) (v : Bool) (c : GitlabClient),
      GitlabClient.init tok env b a v = .ok c →
      (∀ (owner repo sha : String) (hr : Except String HttpResponse)
         (pj : String → Except String GitTreeResponseModel) (m : String),
        GitlabClient.get_tree c owner repo sha hr pj ≠ .error (.auth m)) ∧
      (∀ (owner repo sha : String) (hr : Except String HttpResponse)
         (pj : String → Except String GitBlobResponseModel) (m : String),
        GitlabClient.get_blob c owner repo sha hr pj ≠ .error (.auth m)) ∧
      (∀ (owner repo sha : String) (hr : Except String HttpResponse)
         (pj : String → Except String GitCommitResponseModel) (m : String),
        GitlabClient.get_commit c owner repo sha hr pj ≠ .error (.auth m)) ∧
      (∀ (owner repo : String) (br bn : Option String)
         (hr : Except String HttpResponse)
         (pj : String → Except String GitBranchResponseModel) (m : String),
        GitlabClient.get_branch c owner repo br bn hr pj ≠
          .error (.auth m))) := by
  refine ⟨fun b a v => rfl, fun b a v => rfl, fun tok env b a v => ⟨rfl, ?_⟩,
    fun tok b a v => rfl, ?_⟩
  · simp [GitlabClient.initialHeaders]
  · intro tok env b a v c hinit
    refine ⟨?_, ?_, ?_, ?_⟩
    · intro owner repo sha hr pj m heq
      rcases get_tree_error_kinds heq with ⟨key, hk⟩ | ⟨msg, hk⟩ | ⟨msg, hk⟩ <;>
        exact ClientError.noConfusion hk
    · intro owner repo sha hr pj m heq
      rcases get_blob_error_kinds heq with ⟨key, hk⟩ | ⟨msg, hk⟩ | ⟨msg, hk⟩ <;>
        exact ClientError.noConfusion hk
    · intro owner repo sha hr pj m heq
      rcases get_commit_error_kinds heq with ⟨key, hk⟩ | ⟨msg, hk⟩ | ⟨msg, hk⟩ <;>
        exact ClientError.noConfusion hk
    · intro owner repo br bn hr pj m heq
      rcases get_branch_error_kinds heq with
        ⟨msg, hk⟩ | ⟨key, hk⟩ | ⟨msg, hk⟩ | ⟨msg, hk⟩ <;>
        exact ClientError.noConfusion hk

/-- C5 witness: the missing-token failure at construction, a successful
construction, and a concrete operation on it that is not an auth
failure. -/
theorem c5_eager_auth_check_witness :
    GitlabClient.init none none GitlabClient.DEFAULT_BASE_URL
      GitlabClient.DEFAULT_API_VERSION false = .error (.auth missingTokenMsg) ∧
    GitlabClient.init (some "tok") none GitlabClient.DEFAULT_BASE_URL
      GitlabClient.DEFAULT_API_VERSION false = .ok cEx ∧
    GitlabClient.get_tree cEx "o" "r" "sha" (.ok respOk) pjTree ≠
      .error (.auth "m") :=
  ⟨c5_eager_auth_check.1 GitlabClient.DEFAULT_BASE_URL
      GitlabClient.DEFAULT_API_VERSION false,
   by rfl,
   (c5_eager_auth_check.2.2.2.2 (some "tok") none GitlabClient.DEFAULT_BASE_URL
      GitlabClient.DEFAULT_API_VERSION false cEx (by rfl)).1 "o" "r" "sha"
      (.ok respOk) pjTree "m"⟩

/-- C9: `get_branch` raises its `ValueError` if and only if both
`branch` and `branch_name` are `None`; when `branch` is `None` and
`branch_name` is provided, the call behaves exactly as if `branch` had
been passed that value. -/
theorem c9_get_branch_branch_name (c : GitlabClient) (owner repo : String)
    (httpR : Except String HttpResponse)
    (pj : String → Except String GitBranchResponseModel) :
    (GitlabClient.get_branch c owner repo none none httpR pj =
      .error (.valueError "Either branch or branch_name must be provided.")) ∧
    (∀ (bn : String) (bn' : Option String),
      GitlabClient.get_branch c owner repo none (some bn) httpR pj =
        GitlabClient.get_branch c owner repo (some bn) bn' httpR pj) ∧
    (∀ (b : String) (bn : Option String) (m : String),
      GitlabClient.get_branch c owner repo (some b) bn httpR pj ≠
        .error (.valueError m)) ∧
    (∀ (bn m : String),
      GitlabClient.get_branch c owner repo none (some bn) httpR pj ≠
        .error (.valueError m)) := by
  refine ⟨rfl, fun bn bn' => rfl, ?_, ?_⟩
  · intro b bn m heq
    unfold GitlabClient.get_branch at heq
    cases hreq : GitlabClient.request c "getBranch" "GET" [] httpR with
    | error e =>
      simp only [hreq, Except.error.injEq] at heq
      rcases request_error_kinds hreq with ⟨key, rfl⟩ | ⟨msg, rfl⟩ <;>
        exact ClientError.noConfusion heq
    | ok resp =>
      simp only [hreq] at heq
      cases hpj : pj resp.text with
      | error msg =>
        simp only [hpj, Except.error.injEq] at heq
        exact ClientError.noConfusion heq
      | ok model =>
        simp only [hpj] at heq
        exact Except.noConfusion heq
  · intro bn m heq
    unfold GitlabClient.get_branch at heq
    cases hreq : GitlabClient.request c "getBranch" "GET" [] httpR with
    | error e =>
      simp only [hreq, Except.error.injEq] at heq
      rcases request_error_kinds hreq with ⟨key, rfl⟩ | ⟨msg, rfl⟩ <;>
        exact ClientError.noConfusion heq
    | ok resp =>
      simp only [hreq] at heq
      cases hpj : pj resp.text with
      | error msg =>
        simp only [hpj, Except.error.injEq] at heq
        exact ClientError.noConfusion heq
      | ok model =>
        simp only [hpj] at heq
        exact Except.noConfusion heq

/-- C9 witness: the missing-argument failure and the
`branch_name`-as-`branch` equivalence at a concrete client. -/
theorem c9_get_branch_branch_name_witness :
    GitlabClient.get_branch cEx "o" "r" none none (.ok respOk) pjBranch =
      .error (.valueError "Either branch or branch_name must be provided.") ∧
    GitlabClient.get_branch cEx "o" "r" none (some "main") (.ok respOk)
      pjBranch =
      GitlabClient.get_branch cEx "o" "r" (some "main") none (.ok respOk)
        pjBranch :=
  ⟨(c9_get_branch_branch_name cEx "o" "r" (.ok respOk) pjBranch).1,
   (c9_get_branch_branch_name cEx "o" "r" (.ok respOk) pjBranch).2.1
     "main" none⟩

/-- C10: label filtering — `None` (and the empty filter list) includes
every issue; a non-empty filter list is decided solely by its first
filter (`INCLUDE`: included iff the label is among the issue's labels;
`EXCLUDE`: included iff it is not), with all later filters ignored. -/
theorem c10_label_filter_first_only (issue : Issue) :
    (must_include none issue = true) ∧
    (must_include (some []) issue = true) ∧
    (∀ (lf : String × FilterType) (rest : List (String × FilterType)),
      must_include (some (lf :: rest)) issue =
        must_include (some [lf]) issue) ∧
    (∀ (label : String) (rest : List (String × FilterType)),
      must_include (some ((label, .INCLUDE) :: rest)) issue =
        (issue.labels.map (fun l => l.name)).contains label) ∧
    (∀ (label : String) (rest : List (String × FilterType)),
      must_include (some ((label, .EXCLUDE) :: rest)) issue =
        !((issue.labels.map (fun l => l.name)).contains label)) := by
  refine ⟨rfl, rfl, ?_, fun label rest => rfl, fun label rest => rfl⟩
  intro lf rest
  obtain ⟨label, ft⟩ := lf
  cases ft <;> rfl

/-- C10 witness: a concrete issue labelled "bug" against a filter list
whose second filter would exclude it — only the first filter counts. -/
theorem c10_label_filter_first_only_witness :
    must_include (some [("bug", .INCLUDE), ("ui", .EXCLUDE)]) issueEx =
      must_include (some [("bug", .INCLUDE)]) issueEx ∧
    must_include (some [("bug", .INCLUDE), ("ui", .EXCLUDE)]) issueEx =
      (issueEx.labels.map (fun l => l.name)).contains "bug" :=
  ⟨(c10_label_filter_first_only issueEx).2.2.1 ("bug", .INCLUDE)
      [("ui", .EXCLUDE)],
   (c10_label_filter_first_only issueEx).2.2.2.1 "bug" [("ui", .EXCLUDE)]⟩

/-- Allocation leaves every live dict object unchanged. -/
theorem DictStore.read_alloc_old (st : DictStore) (d : List (String × String))
    (r : Nat) (hr : r < st.dicts.length) :
    (st.alloc d).2.read r = st.read r := by
  unfold DictStore.alloc DictStore.read
  exact List.getD_append _ _ _ _ hr

/-- Reading a freshly allocated dict returns its contents. -/
theorem DictStore.read_alloc_new (st : DictStore) (d : List (String × String)) :
    (st.alloc d).2.read (st.alloc d).1 = d := by
  unfold DictStore.alloc DictStore.read
  simp [List.getD_append_right]

/-- A fresh reference is distinct from every live reference. -/
theorem DictStore.alloc_fresh (st : DictStore) (d : List (String × String))
    (r : Nat) (hr : r < st.dicts.length) : (st.alloc d).1 ≠ r := by
  unfold DictStore.alloc
  show st.dicts.length ≠ r
  omega

/-- Writing through one reference leaves every other dict unchanged. -/
theorem DictStore.read_write_ne (st : DictStore) (r q : Nat)
    (d : List (String × String)) (h : r ≠ q) :
    (st.write r d).read q = st.read q := by
  unfold DictStore.write DictStore.read
  simp [List.getD, List.getElem?_set_ne h]

/-- Allocation grows the heap by one object. -/
theorem DictStore.alloc_length (st : DictStore) (d : List (String × String)) :
    (st.alloc d).2.dicts.length = st.dicts.length + 1 := by
  unfold DictStore.alloc
  simp

/-- The heap effect of `request` is exactly one allocation (the merged
header dict `{**self._headers, **headers}`); the client's own dicts are
never written. -/
theorem requestObj_store (st : DictStore) (c : GitlabClientObj)
    (e m : String) (hdrs : List (String × String))
    (hr : Except String HttpResponse) :
    (GitlabClientObj.request st c e m hdrs hr).2 =
      (st.alloc (dictMerge (st.read c.headersRef) hdrs)).2 := by
  simp only [GitlabClientObj.request]
  split
  · rfl
  · split <;> rfl

/-- Every client call's heap effect preserves all live dict objects and
only grows the heap. -/
theorem applyCall_store (st : DictStore) (c : GitlabClientObj)
    (call : ClientCall) (r : Nat) (hr : r < st.dicts.length) :
    (applyCall st c call).read r = st.read r ∧
    st.dicts.length ≤ (applyCall st c call).dicts.length := by
  have halloc : ∀ d : List (String × String),
      (st.alloc d).2.read r = st.read r ∧
      st.dicts.length ≤ (st.alloc d).2.dicts.length := by
    intro d
    refine ⟨DictStore.read_alloc_old st d r hr, ?_⟩
    rw [DictStore.alloc_length]
    omega
  cases call with
  | callRequest e m hdrs hrq =>
    simp only [applyCall]
    rw [requestObj_store]
    exact halloc _
  | callGetTree o rp s hrq =>
    simp only [applyCall]
    rw [requestObj_store]
    exact halloc _
  | callGetBlob o rp s hrq =>
    simp only [applyCall]
    rw [requestObj_store]
    exact halloc _
  | callGetCommit o rp s hrq =>
    simp only [applyCall]
    rw [requestObj_store]
    exact halloc _
  | callGetBranch o rp br bn hrq =>
    simp only [applyCall]
    cases br with
    | none =>
      cases bn with
      | none => exact ⟨rfl, Nat.le.refl⟩
      | some b =>
        rw [requestObj_store]
        exact halloc _
    | some b =>
      rw [requestObj_store]
      exact halloc _
  | callGetAllEndpoints =>
    simp only [applyCall, GitlabClientObj.get_all_endpoints]
    exact halloc _

/-- Every sequence of client calls preserves all live dict objects. -/
theorem runCalls_store (c : GitlabClientObj) :
    ∀ (calls : List ClientCall) (st : DictStore) (r : Nat),
      r < st.dicts.length →
      (runCalls st c calls).read r = st.read r ∧
      st.dicts.length ≤ (runCalls st c calls).dicts.length := by
  intro calls
  induction calls with
  | nil =>
    intro st r hr
    exact ⟨rfl, Nat.le.refl⟩
  | cons call rest ih =>
    intro st r hr
    have h1 := applyCall_store st c call r hr
    have h2 := ih (applyCall st c call) r (Nat.lt_of_lt_of_le hr h1.2)
    unfold runCalls
    exact ⟨h2.1.trans h1.1, h1.2.trans h2.2⟩

/-- C8: no operation mutates the client's configuration —
`get_all_endpoints` returns a fresh copy of the endpoint dict (its
contents equal the endpoints, and writing through the returned
reference leaves the client's endpoint dict unchanged), and every
sequence of `request`/`get_tree`/`get_blob`/`get_commit`/`get_branch`/
`get_all_endpoints` calls leaves the client's header dict and endpoint
dict (and its scalar fields, which no operation ever rebinds)
identical before and after each call. -/
theorem c8_config_immutability :
    (∀ (st : DictStore) (c : GitlabClientObj) (d : List (String × String)),
      WFClient st c →
      (GitlabClientObj.get_all_endpoints st c).2.read c.endpointsRef =
        st.read c.endpointsRef ∧
      (GitlabClientObj.get_all_endpoints st c).2.read
          (GitlabClientObj.get_all_endpoints st c).1 =
        st.read c.endpointsRef ∧
      (GitlabClientObj.get_all_endpoints st c).1 ≠ c.endpointsRef ∧
      ((GitlabClientObj.get_all_endpoints st c).2.write
          (GitlabClientObj.get_all_endpoints st c).1 d).read c.endpointsRef =
        st.read c.endpointsRef) ∧
    (∀ (st : DictStore) (c : GitlabClientObj) (calls : List ClientCall),
      WFClient st c →
      (runCalls st c calls).read c.endpointsRef = st.read c.endpointsRef ∧
      (runCalls st c calls).read c.headersRef = st.read c.headersRef) := by
  constructor
  · intro st c d hwf
    obtain ⟨he, _⟩ := hwf
    refine ⟨?_, ?_, ?_, ?_⟩
    · exact DictStore.read_alloc_old st _ _ he
    · exact DictStore.read_alloc_new st _
    · exact DictStore.alloc_fresh st _ _ he
    · show ((st.alloc (st.read c.endpointsRef)).2.write
          (st.alloc (st.read c.endpointsRef)).1 d).read c.endpointsRef =
        st.read c.endpointsRef
      rw [DictStore.read_write_ne _ _ _ _ (DictStore.alloc_fresh st _ _ he)]
      exact DictStore.read_alloc_old st _ _ he
  · intro st c calls hwf
    exact ⟨(runCalls_store c calls st _ hwf.1).1,
           (runCalls_store c calls st _ hwf.2).1⟩

/-- C8 witness: for the concretely constructed heap client, mutating the
dict returned by `get_all_endpoints` leaves the client's endpoint dict
unchanged. -/
theorem c8_config_immutability_witness :
    WFClient stObjEx cObjEx ∧
    ((GitlabClientObj.get_all_endpoints stObjEx cObjEx).2.write
        (GitlabClientObj.get_all_endpoints stObjEx cObjEx).1
        [("hacked", "x")]).read cObjEx.endpointsRef =
      stObjEx.read cObjEx.endpointsRef :=
  ⟨by unfold WFClient; decide,
   (c8_config_immutability.1 stObjEx cObjEx [("hacked", "x")]
     (by unfold WFClient; decide)).2.2.2⟩
